import Mathlib

/-!
Verification of the watch multiplexer core of a JNI file watcher
(`src/real/real_filewatcher.c`, `src/common/jni_helpers.c`).

The C code is shallowly embedded: pure fragments become Lean functions,
the mutable `FileWatcher` struct becomes an explicit state record, the
kernel `read` result is passed in explicitly, and the process heap (for
pointer handles) is an association list.  Machine `int`s that can go
negative are `Int`; byte buffers are `List Nat` with bytes `< 256`;
C strings are `List Char`.
-/

namespace FileWatcher

/-! ### inotify mask bits (from `<sys/inotify.h>`, used at
`real_filewatcher.c` lines 122-123 and 145-154) -/

def IN_MODIFY : Nat := 0x2
def IN_MOVED_FROM : Nat := 0x40
def IN_MOVED_TO : Nat := 0x80
def IN_CREATE : Nat := 0x100
def IN_DELETE : Nat := 0x200
def IN_Q_OVERFLOW : Nat := 0x4000

/-- The four normalized event kinds (`FileWatcher$EventKind`). -/
inductive EventKind where
  | created
  | modified
  | deleted
  | overflow
deriving DecidableEq, Repr

/-- Truth test `mask & bits` as C evaluates it. -/
def testBits (mask bits : Nat) : Bool := mask &&& bits ≠ 0

/-- Kind classification of `create_event_object`
(`real_filewatcher.c` lines 144-155): an if/else-if chain over the mask,
ending in a `modified` fallback. -/
def classify_kind (mask : Nat) : EventKind :=
  if testBits mask (IN_CREATE ||| IN_MOVED_TO) then .created
  else if testBits mask IN_MODIFY then .modified
  else if testBits mask (IN_DELETE ||| IN_MOVED_FROM) then .deleted
  else if testBits mask IN_Q_OVERFLOW then .overflow
  else .modified

/-! ### Path construction (`create_event_object`, lines 157-164)

`snprintf(full_path, 1024, "%s/%s", base_path, event->name)` when
`event->len > 0`, else `strncpy(full_path, base_path, 1023)`.
Both truncate the result to 1023 characters. -/

/-- Full path built by `create_event_object`: join `base_path` with the
event name when a name is present (`len > 0`), else the base path alone;
either way truncated to 1023 characters as the C buffer is. -/
def create_event_path (base_path : List Char) (len : Nat) (name : List Char) :
    List Char :=
  if len > 0 then (base_path ++ ['/'] ++ name).take 1023
  else base_path.take 1023

/-! ### Kernel record buffer decoding (`nextEvent`, lines 195-197)

`struct inotify_event` is a 16-byte header `{int wd; uint32_t mask;
uint32_t cookie; uint32_t len;}` followed by `len` name bytes, fields
little-endian.  `nextEvent` casts `&event_buffer[buffer_pos]` to this
struct and advances `buffer_pos += EVENT_SIZE + event->len`. -/

/-- Header size `EVENT_SIZE` = `sizeof(struct inotify_event)` (line 26). -/
def EVENT_SIZE : Nat := 16

/-- Read a byte of the buffer array; out-of-range reads model stale
array contents, which the C code can touch since it never bounds-checks
against `buffer_len`. -/
def readByte (buf : List Nat) (i : Nat) : Nat := buf.getD i 0

/-- Little-endian 32-bit load at offset `i`, as the cast struct access
performs. -/
def readU32 (buf : List Nat) (i : Nat) : Nat :=
  readByte buf i + 256 * readByte buf (i + 1) +
    256 ^ 2 * readByte buf (i + 2) + 256 ^ 3 * readByte buf (i + 3)

/-- One decoded kernel record (a RawEvent): watch descriptor, kind
bitmask, cookie and name bytes. -/
structure RawEvent where
  wd : Nat
  mask : Nat
  cookie : Nat
  name : List Nat
deriving DecidableEq, Repr

/-- A well-formed record: each header field fits in 32 bits, the name
bytes are bytes, and the header's `len` field (the name length) fits. -/
def RawEvent.WellFormed (e : RawEvent) : Prop :=
  e.wd < 2 ^ 32 ∧ e.mask < 2 ^ 32 ∧ e.cookie < 2 ^ 32 ∧
    e.name.length < 2 ^ 32 ∧ ∀ b ∈ e.name, b < 256

instance (e : RawEvent) : Decidable e.WellFormed := by
  unfold RawEvent.WellFormed; infer_instance

/-- Little-endian 32-bit encoding of a field value. -/
def encodeU32 (n : Nat) : List Nat :=
  [n % 256, n / 256 % 256, n / 256 ^ 2 % 256, n / 256 ^ 3 % 256]

/-- The kernel's wire form of one record: 16-byte header then the name
bytes (`len` = name length). -/
def encodeRecord (e : RawEvent) : List Nat :=
  encodeU32 e.wd ++ encodeU32 e.mask ++ encodeU32 e.cookie ++
    encodeU32 e.name.length ++ e.name

/-- A buffer of concatenated records, as one kernel `read` returns. -/
def encodeBuffer (es : List RawEvent) : List Nat :=
  (es.map encodeRecord).flatten

/-- The decode step `nextEvent` performs at `buffer_pos = pos`
(lines 196-197 plus the field reads in `create_event_object`): load the
header fields through the struct cast, take `len` name bytes, and
advance the cursor by `EVENT_SIZE + event->len`.  No bounds check
against the buffer's reported length occurs. -/
def decodeRecordAt (buf : List Nat) (pos : Nat) : RawEvent × Nat :=
  let len := readU32 buf (pos + 12)
  (⟨readU32 buf pos, readU32 buf (pos + 4), readU32 buf (pos + 8),
      (buf.drop (pos + 16)).take len⟩,
    pos + EVENT_SIZE + len)

/-- Index one past the last byte the decode step at `pos` touches:
the header occupies `[pos, pos+16)` and the name `[pos+16, pos+16+len)`. -/
def recordReadEnd (buf : List Nat) (pos : Nat) : Nat :=
  pos + EVENT_SIZE + readU32 buf (pos + 12)

/-- Successive decodes of the buffered data: one record per `nextEvent`
call while `buffer_pos < buffer_len` (the loop formed by the check at
line 185 and the step at lines 196-197).  `len` is the reported length
returned by `read`. -/
def decodeAll (buf : List Nat) (len : Nat) (pos : Nat) : List RawEvent :=
  if _h : pos < len then
    let step := decodeRecordAt buf pos
    step.1 :: decodeAll buf len step.2
  else []
termination_by len - pos
decreasing_by
  simp only [decodeRecordAt, EVENT_SIZE] at *
  omega

/-! ### Watcher instance state (`struct FileWatcher`, lines 30-37)

`inotify_fd`, `buffer_pos` and `buffer_len` are C `int`s (and `read`
returns a signed count that is stored into `buffer_len`), so they are
`Int` here; the fixed `event_buffer` array is a byte list whose tail
keeps stale bytes when a shorter read overwrites its front. -/

structure FWState where
  inotify_fd : Int
  event_buffer : List Nat
  buffer_pos : Int
  buffer_len : Int
deriving DecidableEq, Repr

/-- Kernel `read(2)` on the watcher's inotify fd, as `nextEvent` calls it at
line 186.  On a closed fd (`-1`) it fails with `EBADF` (returns `-1`);
on an open fd `avail = none` models an empty/would-block source
(`-1`/`EAGAIN`, the fd is `IN_NONBLOCK`), and `avail = some data` models
delivered bytes, which overwrite the front of the buffer array. -/
def readCall (s : FWState) (avail : Option (List Nat)) : Int × List Nat :=
  if s.inotify_fd < 0 then (-1, s.event_buffer)
  else
    match avail with
    | none => (-1, s.event_buffer)
    | some data => ((data.length : Int), data ++ s.event_buffer.drop data.length)

/-- Poll body `nextEvent` (lines 177-206) for a non-null watcher: if the cursor
has passed the buffered length, refill via one `read` (storing its
signed result into `buffer_len` and resetting `buffer_pos`), returning
null when the result is `<= 0`; otherwise decode the record at the
cursor and advance it.  Returns the decoded record and the new state. -/
def nextEvent (s : FWState) (avail : Option (List Nat)) :
    Option RawEvent × FWState :=
  if s.buffer_pos ≥ s.buffer_len then
    let r := readCall s avail
    let s1 : FWState :=
      { s with event_buffer := r.2, buffer_len := r.1, buffer_pos := 0 }
    if r.1 ≤ 0 then (none, s1)
    else
      let step := decodeRecordAt s1.event_buffer s1.buffer_pos.toNat
      (some step.1, { s1 with buffer_pos := (step.2 : Int) })
  else
    let step := decodeRecordAt s.event_buffer s.buffer_pos.toNat
    (some step.1, { s with buffer_pos := (step.2 : Int) })

/-- Close body (lines 209-216) for a non-null watcher: `close(fd)` then
`inotify_fd = -1`.  The buffer fields are not touched. -/
def closeFW (s : FWState) : FWState := { s with inotify_fd := -1 }

/-- A sequence of `nextEvent` calls, one per entry of `avails` (each
entry the kernel data that a `read` during that call would find). -/
def runPolls (s : FWState) : List (Option (List Nat)) → List (Option RawEvent)
  | [] => []
  | a :: rest =>
    let step := nextEvent s a
    step.1 :: runPolls step.2 rest

/-! ### Kernel registration state (`inotify_add_watch`, lines 122-123)

The kernel side of `watch`/`unwatch`: the set of active `(wd, path)`
registrations on the watcher's inotify fd and the next descriptor the
kernel would assign. -/

/-- Mask passed by `watch` (lines 122-123). -/
def WATCH_MASK : Nat :=
  IN_CREATE ||| IN_DELETE ||| IN_MODIFY ||| IN_MOVED_FROM ||| IN_MOVED_TO

structure KernelState where
  regs : List (Nat × List Char)
  nextWd : Nat
deriving DecidableEq, Repr

/-- Kernel `inotify_add_watch(fd, path, mask)`: fails (`-1`) on a closed fd or
when the kernel rejects the path (`ok = false`: nonexistent path,
permission, resource limit); on success registers the path under a
fresh descriptor and returns it. -/
def inotify_add_watch (fd : Int) (k : KernelState) (path : List Char)
    (ok : Bool) : KernelState × Int :=
  if fd < 0 then (k, -1)
  else if ok then
    ({ regs := k.regs ++ [(k.nextWd, path)], nextWd := k.nextWd + 1 },
      (k.nextWd : Int))
  else (k, -1)

/-- Watch body (lines 113-128) for a non-null watcher: one
`inotify_add_watch` call, result `wd >= 0`.  Nothing else happens: no
lock is taken and no path-to-descriptor table exists to insert into. -/
def watchFW (fd : Int) (k : KernelState) (path : List Char) (ok : Bool) :
    KernelState × Bool :=
  let r := inotify_add_watch fd k path ok
  (r.1, decide (r.2 ≥ 0))

/-- Unwatch body (lines 131-139) for a non-null watcher: the body is
empty (the source comment says "this is a no-op"); neither the kernel
registrations nor the watcher state change, and `inotify_rm_watch` is
never called. -/
def unwatchFW (k : KernelState) (_path : List Char) : KernelState := k

/-! ### Delivered events (`create_event_object` call site, lines 200-205)

`nextEvent` builds the Java event by calling
`create_event_object(env, event, "")` — the base path is always the
empty string (the source comment at lines 201-202 calls it "a dummy
base path"); no watch-descriptor-to-path table exists to consult. -/

/-- The `(kind, path)` pair delivered for a decoded record with kind
mask `mask`, name length `len` and name characters `name`:
`create_event_object` with `base_path = ""` as `nextEvent` passes it. -/
def delivered_event (mask : Nat) (len : Nat) (name : List Char) :
    EventKind × List Char :=
  (classify_kind mask, create_event_path [] len name)

/-! ### The pointer-handle layer (every JNI entry point)

Each JNI function receives `watcherPtr : jlong`, casts it to
`FileWatcher*` and guards only `watcher == NULL` (ptr = 0).  `destroy`
frees the struct without any way to invalidate the caller's copy of the
pointer, so a later call with the same non-null pointer dereferences
freed memory — undefined behavior in C.  The heap is an association
list from pointer values to live watcher states; a dereference of a
pointer with no live cell is modeled as the explicit outcome `undef`. -/

abbrev Heap := List (Nat × FWState)

/-- Outcome of a JNI call: a normal return value, or undefined behavior
from dereferencing a dangling pointer. -/
inductive OpResult (α : Type) where
  | ret (a : α)
  | undef
deriving DecidableEq, Repr

/-- Actions an operation performs on shared state, in order: mutex
lock/unlock, kernel calls, and accesses to the shared buffer cursor or
contents. -/
inductive Action where
  | lock
  | unlock
  | kAddWatch
  | kRead
  | kClose
  | bufAccess
deriving DecidableEq, Repr

/-- Lock/unlock, kernel and shared-buffer actions `nextEvent` performs,
branch by branch (lines 182-199): `pthread_mutex_lock`; the cursor
check at 185; on refill the `read` and the cursor/length stores; on a
failed refill unlock and return; otherwise the decode/advance at
196-197; `pthread_mutex_unlock`. -/
def nextEventActions (s : FWState) (avail : Option (List Nat)) :
    List Action :=
  if s.buffer_pos ≥ s.buffer_len then
    if (readCall s avail).1 ≤ 0 then
      [.lock, .bufAccess, .kRead, .bufAccess, .unlock]
    else
      [.lock, .bufAccess, .kRead, .bufAccess, .bufAccess, .unlock]
  else [.lock, .bufAccess, .bufAccess, .unlock]

/-- JNI `watch` (lines 113-128): null guard, then `inotify_add_watch`
on the instance's fd.  No mutex operation appears in its body. -/
def watchOp (h : Heap) (k : KernelState) (ptr : Nat) (path : List Char)
    (ok : Bool) : OpResult Bool × KernelState × List Action :=
  if ptr = 0 then (.ret false, k, [])
  else
    match List.lookup ptr h with
    | none => (.undef, k, [])
    | some s =>
      let r := watchFW s.inotify_fd k path ok
      (.ret r.2, r.1, [.kAddWatch])

/-- JNI `unwatch` (lines 131-139): null guard, empty body.  It never
dereferences the pointer, so it is well-defined even on a destroyed
handle, and performs no kernel or lock action. -/
def unwatchOp (ptr : Nat) (_path : List Char) : OpResult Unit × List Action :=
  if ptr = 0 then (.ret (), [])
  else (.ret (), [])

/-- JNI `nextEvent` (lines 177-206): null guard, then the locked body
`nextEvent` above. -/
def nextEventOp (h : Heap) (ptr : Nat) (avail : Option (List Nat)) :
    OpResult (Option RawEvent) × Heap × List Action :=
  if ptr = 0 then (.ret none, h, [])
  else
    match List.lookup ptr h with
    | none => (.undef, h, [])
    | some s =>
      let r := nextEvent s avail
      (.ret r.1, h.replaceF (fun c => if c.1 = ptr then some (ptr, r.2) else none),
        nextEventActions s avail)

/-- JNI `close` (lines 209-216): null guard, `close(fd)`, `fd = -1`.
No mutex operation appears in its body. -/
def closeOp (h : Heap) (ptr : Nat) : OpResult Unit × Heap × List Action :=
  if ptr = 0 then (.ret (), h, [])
  else
    match List.lookup ptr h with
    | none => (.undef, h, [])
    | some s =>
      (.ret (),
        h.replaceF (fun c => if c.1 = ptr then some (ptr, closeFW s) else none),
        [.kClose])

/-- JNI `destroy` (lines 219-229): null guard; `close(fd)` when the fd
is still open; `pthread_mutex_destroy`; `free(watcher)` — the cell
leaves the heap, but the caller's pointer value is not changed. -/
def destroyOp (h : Heap) (ptr : Nat) : OpResult Unit × Heap × List Action :=
  if ptr = 0 then (.ret (), h, [])
  else
    match List.lookup ptr h with
    | none => (.undef, h, [])
    | some s =>
      (.ret (), h.filter (fun c => c.1 ≠ ptr),
        if s.inotify_fd ≥ 0 then [.kClose] else [])

/-- A trace that holds the mutex for the whole operation: it opens by
acquiring the lock and its last action releases it. -/
def locksFullSection (tr : List Action) : Bool :=
  tr.head? == some Action.lock && tr.getLast? == some Action.unlock

/-! ### Debug toggle (`jni_helpers.c`, lines 17-29)

`static int debug_enabled = -1`; on first call `is_debug_enabled` reads
`getenv("FILEWATCHER_DEBUG")` and caches
`(debug_env != NULL && *debug_env != '0') ? 1 : 0`.  The environment
value is a C string: its first byte is `'\0'` when it is empty. -/

/-- First byte `*debug_env` of the C string, `'\0'` if empty. -/
def firstCharOrNul (s : List Char) : Char := s.headD (Char.ofNat 0)

/-- The value computed from the environment on the first call:
`(debug_env != NULL && *debug_env != '0') ? 1 : 0`. -/
def computeDebug (env : Option (List Char)) : Int :=
  match env with
  | none => 0
  | some s => if firstCharOrNul s ≠ '0' then 1 else 0

/-- Toggle query `is_debug_enabled` (lines 23-29) as a function of the cached static
`debug_enabled` and the environment: returns the flag and the new cached
value. -/
def is_debug_enabled (cached : Int) (env : Option (List Char)) : Int × Int :=
  if cached = -1 then (computeDebug env, computeDebug env)
  else (cached, cached)

/-! ### Helper lemmas -/

lemma lor_eq_zero_split {a b : Nat} (h : a ||| b = 0) : a = 0 ∧ b = 0 := by
  have h' : ∀ i, Nat.testBit (a ||| b) i = false := by simp [h]
  refine ⟨Nat.eq_of_testBit_eq fun i => ?_, Nat.eq_of_testBit_eq fun i => ?_⟩ <;>
    · have hi := h' i
      simp only [Nat.testBit_or, Bool.or_eq_false_iff] at hi
      simp [hi.1, hi.2]

/-! ### C3: classification precedence -/

/-- C3: kind classification follows the precedence creation/rename-in >
modification > deletion/rename-out > queue-overflow when multiple mask
bits are set; in particular a mask with both the creation and
modification bits set classifies as Created, never Modified. -/
theorem classify_kind_precedence (mask : Nat) :
    (testBits mask (IN_CREATE ||| IN_MOVED_TO) = true →
      classify_kind mask = .created) ∧
    (testBits mask (IN_CREATE ||| IN_MOVED_TO) = false →
      testBits mask IN_MODIFY = true → classify_kind mask = .modified) ∧
    (testBits mask (IN_CREATE ||| IN_MOVED_TO) = false →
      testBits mask IN_MODIFY = false →
      testBits mask (IN_DELETE ||| IN_MOVED_FROM) = true →
      classify_kind mask = .deleted) ∧
    (testBits mask (IN_CREATE ||| IN_MOVED_TO) = false →
      testBits mask IN_MODIFY = false →
      testBits mask (IN_DELETE ||| IN_MOVED_FROM) = false →
      testBits mask IN_Q_OVERFLOW = true →
      classify_kind mask = .overflow) ∧
    (classify_kind (IN_CREATE ||| IN_MODIFY) = .created ∧
      classify_kind (IN_CREATE ||| IN_MODIFY) ≠ .modified) := by
  refine ⟨fun h1 => ?_, fun h1 h2 => ?_, fun h1 h2 h3 => ?_,
    fun h1 h2 h3 h4 => ?_, by decide⟩
  · simp [classify_kind, h1]
  · simp [classify_kind, h1, h2]
  · simp [classify_kind, h1, h2, h3]
  · simp [classify_kind, h1, h2, h3, h4]

/-- Witness for C3 at concrete masks: each precedence level applied at
an input that reaches it. -/
theorem classify_kind_precedence_witness :
    classify_kind (IN_CREATE ||| IN_MODIFY) = .created ∧
    classify_kind (IN_MODIFY ||| IN_DELETE) = .modified ∧
    classify_kind (IN_DELETE ||| IN_Q_OVERFLOW) = .deleted ∧
    classify_kind IN_Q_OVERFLOW = .overflow :=
  ⟨(classify_kind_precedence (IN_CREATE ||| IN_MODIFY)).1 (by decide),
   (classify_kind_precedence (IN_MODIFY ||| IN_DELETE)).2.1 (by decide)
     (by decide),
   (classify_kind_precedence (IN_DELETE ||| IN_Q_OVERFLOW)).2.2.1 (by decide)
     (by decide) (by decide),
   (classify_kind_precedence IN_Q_OVERFLOW).2.2.2.1 (by decide) (by decide)
     (by decide) (by decide)⟩

/-! ### C10: fallback to Modified for unrecognized masks -/

/-- C10: a mask containing none of the recognized bits (creation,
rename-in, modification, deletion, rename-out, queue-overflow) still
classifies — `classify_kind` is total by construction — and falls into
the final `else`, producing Modified; e.g. a watch-removed
(`IN_IGNORED = 0x8000`) notification is delivered as Modified. -/
theorem classify_kind_unrecognized_fallback (mask : Nat)
    (h : mask &&& ((IN_CREATE ||| IN_MOVED_TO) ||| IN_MODIFY |||
      (IN_DELETE ||| IN_MOVED_FROM) ||| IN_Q_OVERFLOW) = 0) :
    classify_kind mask = .modified := by
  rw [Nat.and_or_distrib_left, Nat.and_or_distrib_left,
    Nat.and_or_distrib_left] at h
  obtain ⟨h', hovf⟩ := lor_eq_zero_split h
  obtain ⟨h'', hdel⟩ := lor_eq_zero_split h'
  obtain ⟨hcre, hmod⟩ := lor_eq_zero_split h''
  simp [classify_kind, testBits, hcre, hmod, hdel, hovf]

/-- Witness for C10 at `IN_IGNORED = 0x8000` (a watch-removed
notification's mask). -/
theorem classify_kind_unrecognized_fallback_witness :
    classify_kind 0x8000 = .modified :=
  classify_kind_unrecognized_fallback 0x8000 (by decide)

/-! ### C2: delivered event paths -/

/-- C2 counter-evidence (code bug): `nextEvent` invokes
`create_event_object` with the empty base path (line 203), never the
watched directory's registered path, so the directory-content creation
event with name "foo.txt" under watched path "/tmp/x" is delivered as
`(Created, "/foo.txt")` instead of the claimed `(Created,
"/tmp/x/foo.txt")`; the join itself (`create_event_path`) would produce
the claimed path had the watched path been passed as the base. -/
theorem delivered_event_ignores_watched_path :
    delivered_event IN_CREATE 7 "foo.txt".data =
      (.created, "/foo.txt".data) ∧
    "/foo.txt".data ≠ "/tmp/x/foo.txt".data ∧
    create_event_path "/tmp/x".data 7 "foo.txt".data =
      "/tmp/x/foo.txt".data := by
  refine ⟨?_, by decide, ?_⟩ <;>
    simp [delivered_event, create_event_path, classify_kind, testBits,
      IN_CREATE, IN_MOVED_TO,
      List.take_of_length_le (by simp : ("/foo.txt".data).length ≤ 1023),
      List.take_of_length_le (by simp : ("/tmp/x/foo.txt".data).length ≤ 1023)]

/-! ### C9: debug toggle -/

/-- C9 counterexample: in an environment where `FILEWATCHER_DEBUG` is
unset, the first call of `is_debug_enabled` computes 0 (disabled), not
1 (enabled) as the claim states. -/
theorem is_debug_enabled_unset_disabled :
    (is_debug_enabled (-1) none).1 = 0 ∧
    (is_debug_enabled (-1) none).1 ≠ 1 := by decide

/-- C9 amended: the toggle is computed from the environment on first
use and cached — a later call returns the cached flag without
consulting the (possibly different) environment — and it is enabled iff
the variable is set to a value whose first byte is not `'0'`; when the
variable is unset the toggle is disabled (and an empty value enables
it, since its first byte is NUL). -/
theorem is_debug_enabled_read_once_opt_in :
    (∀ env env2 : Option (List Char),
      is_debug_enabled (is_debug_enabled (-1) env).2 env2 =
        ((is_debug_enabled (-1) env).1, (is_debug_enabled (-1) env).2)) ∧
    (∀ env : Option (List Char),
      ((is_debug_enabled (-1) env).1 = 1 ↔
        ∃ s, env = some s ∧ firstCharOrNul s ≠ '0')) ∧
    (is_debug_enabled (-1) none).1 = 0 ∧
    (is_debug_enabled (-1) (some [])).1 = 1 := by
  refine ⟨fun env env2 => ?_, fun env => ?_, by decide, by decide⟩
  · rcases env with _ | s <;> simp [is_debug_enabled, computeDebug]
    split <;> simp
  · rcases env with _ | s <;> simp [is_debug_enabled, computeDebug]

/-! ### C1: unwatch -/

/-- C1 counter-evidence (code bug): `unwatch`'s body is empty — no
watch-descriptor table exists and `inotify_rm_watch` is never called —
so after `watch("/tmp/x")` succeeds (registering descriptor 1 in the
kernel), `unwatch("/tmp/x")` leaves the kernel registration for
"/tmp/x" in place, contradicting the claim that every registration for
the path is released. -/
theorem unwatch_releases_nothing :
    (watchFW 5 ⟨[], 1⟩ "/tmp/x".data true).2 = true ∧
    (watchFW 5 ⟨[], 1⟩ "/tmp/x".data true).1.regs = [(1, "/tmp/x".data)] ∧
    unwatchFW (watchFW 5 ⟨[], 1⟩ "/tmp/x".data true).1 "/tmp/x".data =
      (watchFW 5 ⟨[], 1⟩ "/tmp/x".data true).1 ∧
    (unwatchFW (watchFW 5 ⟨[], 1⟩ "/tmp/x".data true).1
        "/tmp/x".data).regs.filter (fun r => r.2 == "/tmp/x".data) ≠ [] := by
  decide

/-! ### C5: trailing partial record -/

/-- C5 counter-evidence (code bug): `nextEvent` performs no bounds
check against the reported buffer length.  For a read cycle whose
reported length is 8 — the buffer ends inside the 16-byte record header
— the decode step still loads the header fields and name from (stale)
bytes at indices 8..18, past the reported length, and fabricates an
event instead of reporting a decode error: here the buffered data
`[1,0,0,0, 0,1,0,0]` followed by stale bytes yields a fabricated event
with name "ABC". -/
theorem truncated_record_read_past_length :
    (decodeAll [1,0,0,0, 0,1,0,0, 0,0,0,0, 3,0,0,0, 65,66,67,0,0] 8 0 =
      [⟨1, 256, 0, [65,66,67]⟩]) ∧
    recordReadEnd [1,0,0,0, 0,1,0,0, 0,0,0,0, 3,0,0,0, 65,66,67,0,0] 0 = 19 ∧
    8 < recordReadEnd [1,0,0,0, 0,1,0,0, 0,0,0,0, 3,0,0,0, 65,66,67,0,0] 0 ∧
    (nextEvent ⟨5, [1,0,0,0, 0,1,0,0, 0,0,0,0, 3,0,0,0, 65,66,67,0,0], 0, 8⟩
        none).1 = some ⟨1, 256, 0, [65,66,67]⟩ := by
  constructor
  · rw [decodeAll]; norm_num
    rw [decodeAll]
    norm_num [decodeRecordAt, readU32, readByte, EVENT_SIZE]
  · refine ⟨by decide, by decide, ?_⟩
    decide

/-! ### C8: locking -/

/-- C8 counter-evidence (code bug): of the four operations, only
`nextEvent` (poll) acquires the instance mutex; the bodies of `watch`,
`unwatch` and `close` contain no lock acquisition at all, even though
`watch` uses the shared inotify fd and `close` writes it (its whole
action trace on a live watcher is `[kClose]`).  This contradicts the
claim — and the source header's own "thread-safe" description — that
each of the four acquires the lock for its full critical section. -/
theorem only_next_event_locks :
    (∀ (h : Heap) (k : KernelState) (ptr : Nat) (path : List Char)
        (ok : Bool), ((watchOp h k ptr path ok).2.2).count Action.lock = 0) ∧
    (∀ (ptr : Nat) (path : List Char),
      ((unwatchOp ptr path).2).count Action.lock = 0) ∧
    (∀ (h : Heap) (ptr : Nat),
      ((closeOp h ptr).2.2).count Action.lock = 0) ∧
    (∀ (s : FWState) (avail : Option (List Nat)),
      locksFullSection (nextEventActions s avail) = true) ∧
    locksFullSection [Action.kClose] = false ∧
    (closeOp [(1, ⟨5, [], 0, 0⟩)] 1).2.2 = [Action.kClose] := by
  refine ⟨fun h k ptr path ok => ?_, fun ptr path => ?_, fun h ptr => ?_,
    fun s avail => ?_, by decide, by decide⟩
  · unfold watchOp
    split
    · rfl
    · rcases List.lookup ptr h with _ | s <;> simp
  · unfold unwatchOp; split <;> rfl
  · unfold closeOp
    split
    · rfl
    · rcases List.lookup ptr h with _ | s <;> simp
  · unfold nextEventActions
    split
    · split <;> rfl
    · rfl

/-! ### C7: operations after destroy -/

/-- C7 counterexample: after `destroy` frees watcher 1 (its heap cell
is gone but the caller's pointer value is unchanged), a subsequent
`watch` call with that pointer passes the only guard in the code — the
`watcher == NULL` check — and dereferences freed memory: the outcome is
undefined behavior, not the designated failure sentinel `false` the
claim promises; likewise for a subsequent poll. -/
theorem watch_after_destroy_undef :
    (destroyOp [(1, ⟨5, [], 0, 0⟩)] 1).1 = .ret () ∧
    (destroyOp [(1, ⟨5, [], 0, 0⟩)] 1).2.1 = [] ∧
    (watchOp (destroyOp [(1, ⟨5, [], 0, 0⟩)] 1).2.1 ⟨[], 1⟩ 1
        "/a".data true).1 = OpResult.undef ∧
    (watchOp (destroyOp [(1, ⟨5, [], 0, 0⟩)] 1).2.1 ⟨[], 1⟩ 1
        "/a".data true).1 ≠ OpResult.ret false ∧
    (nextEventOp (destroyOp [(1, ⟨5, [], 0, 0⟩)] 1).2.1 1 none).1 =
      OpResult.undef := by
  decide

/-- C7 amended: only the NULL (zero) handle is rejected: with pointer 0
every operation returns its designated sentinel (`false` for watch,
null for poll, plain return for the void operations) and performs no
kernel action; with a destroyed — freed, non-null — pointer, `watch`,
`nextEvent`, `close` and `destroy` dereference freed memory (undefined
behavior, no sentinel guaranteed), while `unwatch`, whose body never
dereferences the pointer, returns normally. -/
theorem null_handle_sentinel_dangling_undef :
    (∀ (h : Heap) (k : KernelState) (path : List Char) (ok : Bool)
        (avail : Option (List Nat)),
      watchOp h k 0 path ok = (.ret false, k, []) ∧
      unwatchOp 0 path = (.ret (), []) ∧
      nextEventOp h 0 avail = (.ret none, h, []) ∧
      closeOp h 0 = (.ret (), h, []) ∧
      destroyOp h 0 = (.ret (), h, [])) ∧
    (∀ (h : Heap) (k : KernelState) (ptr : Nat) (path : List Char)
        (ok : Bool) (avail : Option (List Nat)),
      ptr ≠ 0 → List.lookup ptr h = none →
      (watchOp h k ptr path ok).1 = .undef ∧
      (nextEventOp h ptr avail).1 = .undef ∧
      (closeOp h ptr).1 = .undef ∧
      (destroyOp h ptr).1 = .undef ∧
      unwatchOp ptr path = (.ret (), [])) := by
  constructor
  · intro h k path ok avail
    simp [watchOp, unwatchOp, nextEventOp, closeOp, destroyOp]
  · intro h k ptr path ok avail hptr hlk
    simp [watchOp, unwatchOp, nextEventOp, closeOp, destroyOp, hptr, hlk]

/-- Witness for C7's amended theorem at a concrete heap and pointer. -/
theorem null_handle_sentinel_dangling_undef_witness :
    (watchOp [(1, ⟨5, [], 0, 0⟩)] ⟨[], 1⟩ 0 "/a".data true).1 =
      OpResult.ret false ∧
    (watchOp [(1, ⟨5, [], 0, 0⟩)] ⟨[], 1⟩ 2 "/a".data true).1 =
      OpResult.undef :=
  ⟨(null_handle_sentinel_dangling_undef.1 [(1, ⟨5, [], 0, 0⟩)] ⟨[], 1⟩
      "/a".data true none).1 ▸ rfl,
   (null_handle_sentinel_dangling_undef.2 [(1, ⟨5, [], 0, 0⟩)] ⟨[], 1⟩ 2
      "/a".data true none (by decide) (by decide)).1⟩

/-! ### C6: poll after close -/

/-- C6 counterexample: `close` releases the fd but leaves the buffer
cursor and length untouched, so a watcher closed while one decoded-but-
unconsumed record sits in its buffer still delivers that record from
the very next poll — the claim's "returns null forever, including with
unconsumed buffered records" fails at this state. -/
theorem poll_after_close_delivers_buffered :
    (nextEvent (closeFW ⟨5, encodeRecord ⟨1, 256, 0, [102, 111, 111]⟩, 0, 19⟩)
        none).1 = some ⟨1, 256, 0, [102, 111, 111]⟩ ∧
    (nextEvent (closeFW ⟨5, encodeRecord ⟨1, 256, 0, [102, 111, 111]⟩, 0, 19⟩)
        none).1 ≠ none := by
  decide

/-- One poll on a closed watcher whose buffer is drained returns null
and leaves the watcher closed and drained (the failed `read` stores
`-1` into `buffer_len` and `0` into `buffer_pos`). -/
lemma nextEvent_closed_drained (s : FWState) (a : Option (List Nat))
    (hfd : s.inotify_fd < 0) (hdr : s.buffer_pos ≥ s.buffer_len) :
    (nextEvent s a).1 = none ∧
    (nextEvent s a).2.inotify_fd < 0 ∧
    (nextEvent s a).2.buffer_pos ≥ (nextEvent s a).2.buffer_len := by
  simp only [nextEvent, readCall, if_pos hdr, if_pos hfd]
  norm_num
  exact hfd

/-- C6 amended: after `close`, polls return null forever once the
buffered data read before close has been drained (`buffer_pos ≥
buffer_len`); in that state every later poll — whatever the kernel
would have delivered — returns null and leaves the state closed and
drained. -/
theorem poll_after_close_drained_none_forever (s : FWState)
    (hfd : s.inotify_fd < 0) (hdr : s.buffer_pos ≥ s.buffer_len)
    (avails : List (Option (List Nat))) :
    runPolls s avails = avails.map (fun _ => none) := by
  induction avails generalizing s with
  | nil => rfl
  | cons a rest ih =>
    obtain ⟨h1, h2, h3⟩ := nextEvent_closed_drained s a hfd hdr
    simp only [runPolls, List.map, h1]
    exact congrArg _ (ih _ h2 h3)

/-- Witness for C6's amended theorem: a closed, drained watcher polled
three times (the third with kernel data that would have been readable
on a live fd) yields null every time. -/
theorem poll_after_close_drained_none_forever_witness :
    runPolls ⟨-1, [], 0, -1⟩ [none, none, some [1, 2, 3]] =
      List.map (fun _ => none) [none, none, some [1, 2, 3]] :=
  poll_after_close_drained_none_forever ⟨-1, [], 0, -1⟩ (by decide)
    (by decide) [none, none, some [1, 2, 3]]

/-! ### C4: decoding a buffer of well-formed records -/

lemma readU32_cons_succ (x : Nat) (l : List Nat) (i : Nat) :
    readU32 (x :: l) (i + 1) = readU32 l i := rfl

lemma readU32_append (pre l : List Nat) (i : Nat) :
    readU32 (pre ++ l) (pre.length + i) = readU32 l i := by
  induction pre with
  | nil => simp
  | cons x pre ih =>
    have h : (x :: pre).length + i = (pre.length + i) + 1 := by
      simp [Nat.succ_add]
    rw [List.cons_append, h, readU32_cons_succ, ih]

lemma drop_append_len (pre l : List Nat) (i : Nat) :
    (pre ++ l).drop (pre.length + i) = l.drop i := by
  induction pre with
  | nil => simp
  | cons x pre ih => simp [Nat.succ_add, ih]

lemma encodeRecord_length (e : RawEvent) :
    (encodeRecord e).length = 16 + e.name.length := by
  simp [encodeRecord, encodeU32]
  omega

/-- Decoding at the start of an encoded well-formed record recovers
exactly that record and advances the cursor to the following one,
independently of what precedes and follows it in the buffer. -/
lemma decodeRecordAt_encode (pre rest : List Nat) (e : RawEvent)
    (he : e.WellFormed) :
    decodeRecordAt (pre ++ (encodeRecord e ++ rest)) pre.length =
      (e, pre.length + 16 + e.name.length) := by
  obtain ⟨h1, h2, h3, h4, _⟩ := he
  have rApp : ∀ i, readU32 (pre ++ (encodeRecord e ++ rest))
      (pre.length + i) = readU32 (encodeRecord e ++ rest) i :=
    fun i => readU32_append _ _ i
  have f0 : readU32 (encodeRecord e ++ rest) 0 =
      e.wd % 256 + 256 * (e.wd / 256 % 256) +
        256 ^ 2 * (e.wd / 256 ^ 2 % 256) +
        256 ^ 3 * (e.wd / 256 ^ 3 % 256) := rfl
  have f4 : readU32 (encodeRecord e ++ rest) 4 =
      e.mask % 256 + 256 * (e.mask / 256 % 256) +
        256 ^ 2 * (e.mask / 256 ^ 2 % 256) +
        256 ^ 3 * (e.mask / 256 ^ 3 % 256) := rfl
  have f8 : readU32 (encodeRecord e ++ rest) 8 =
      e.cookie % 256 + 256 * (e.cookie / 256 % 256) +
        256 ^ 2 * (e.cookie / 256 ^ 2 % 256) +
        256 ^ 3 * (e.cookie / 256 ^ 3 % 256) := rfl
  have f12 : readU32 (encodeRecord e ++ rest) 12 =
      e.name.length % 256 + 256 * (e.name.length / 256 % 256) +
        256 ^ 2 * (e.name.length / 256 ^ 2 % 256) +
        256 ^ 3 * (e.name.length / 256 ^ 3 % 256) := rfl
  have h0 : readU32 (pre ++ (encodeRecord e ++ rest)) pre.length = e.wd := by
    have := rApp 0
    rw [Nat.add_zero] at this
    rw [this, f0]
    norm_num
    omega
  have h4' : readU32 (pre ++ (encodeRecord e ++ rest)) (pre.length + 4) =
      e.mask := by
    rw [rApp 4, f4]
    norm_num
    omega
  have h8' : readU32 (pre ++ (encodeRecord e ++ rest)) (pre.length + 8) =
      e.cookie := by
    rw [rApp 8, f8]
    norm_num
    omega
  have h12' : readU32 (pre ++ (encodeRecord e ++ rest)) (pre.length + 12) =
      e.name.length := by
    rw [rApp 12, f12]
    norm_num
    omega
  have hdrop : (pre ++ (encodeRecord e ++ rest)).drop (pre.length + 16) =
      e.name ++ rest := by
    rw [drop_append_len]
    rfl
  simp only [decodeRecordAt, EVENT_SIZE, h0, h4', h8', h12', hdrop,
    List.take_left]

/-- Unfolding of `encodeBuffer` on a cons. -/
lemma encodeBuffer_cons (r : RawEvent) (rest : List RawEvent) :
    encodeBuffer (r :: rest) = encodeRecord r ++ encodeBuffer rest := by
  simp [encodeBuffer]

/-- Successive polls over a buffered read consume one encoded record
each, in order: stated with an arbitrary already-consumed prefix `pre`
of the buffer so that induction goes through. -/
lemma runPolls_buffered (fd : Int) (pre : List Nat) (rs : List RawEvent)
    (h : ∀ e ∈ rs, e.WellFormed) :
    runPolls ⟨fd, pre ++ encodeBuffer rs, (pre.length : Int),
        ((pre ++ encodeBuffer rs).length : Int)⟩
      (List.replicate rs.length none) = rs.map some := by
  induction rs generalizing pre with
  | nil => simp [runPolls]
  | cons r rest ih =>
    have hr : r.WellFormed := h r (List.mem_cons_self r rest)
    have hrest : ∀ e ∈ rest, e.WellFormed :=
      fun e he => h e (List.mem_cons_of_mem r he)
    rw [encodeBuffer_cons]
    have hlen : ((pre ++ (encodeRecord r ++ encodeBuffer rest)).length : Int) =
        (pre.length : Int) + 16 + r.name.length + (encodeBuffer rest).length := by
      push_cast [List.length_append, encodeRecord_length]
      ring
    have hnotge : ¬ ((pre.length : Int) ≥
        ((pre ++ (encodeRecord r ++ encodeBuffer rest)).length : Int)) := by
      rw [hlen]
      have : (0 : Int) ≤ (r.name.length : Int) := Int.natCast_nonneg _
      have : (0 : Int) ≤ ((encodeBuffer rest).length : Int) :=
        Int.natCast_nonneg _
      omega
    simp only [List.length_cons, List.replicate_succ, runPolls]
    rw [show (List.replicate rest.length none :
        List (Option (List Nat))) = List.replicate rest.length none from rfl]
    have hstep : nextEvent ⟨fd, pre ++ (encodeRecord r ++ encodeBuffer rest),
        (pre.length : Int),
        ((pre ++ (encodeRecord r ++ encodeBuffer rest)).length : Int)⟩ none =
        (some r, ⟨fd, pre ++ (encodeRecord r ++ encodeBuffer rest),
          ((pre.length + 16 + r.name.length : Nat) : Int),
          ((pre ++ (encodeRecord r ++ encodeBuffer rest)).length : Int)⟩) := by
      simp only [nextEvent, if_neg hnotge]
      rw [show ((pre.length : Int)).toNat = pre.length from Int.toNat_natCast _]
      rw [decodeRecordAt_encode pre (encodeBuffer rest) r hr]
    rw [hstep]
    have hst : (⟨fd, pre ++ (encodeRecord r ++ encodeBuffer rest),
        ((pre.length + 16 + r.name.length : Nat) : Int),
        ((pre ++ (encodeRecord r ++ encodeBuffer rest)).length : Int)⟩ :
          FWState) =
        ⟨fd, (pre ++ encodeRecord r) ++ encodeBuffer rest,
          (((pre ++ encodeRecord r).length : Nat) : Int),
          (((pre ++ encodeRecord r) ++ encodeBuffer rest).length : Int)⟩ := by
      simp [List.append_assoc, List.length_append, encodeRecord_length]
      ring
    rw [hst, ih _ hrest]
    simp

/-- C4: a buffer composed of N well-formed concatenated kernel records,
read in one kernel read and then consumed by successive `nextEvent`
calls, yields exactly those N records, in the buffer's original order —
none skipped, duplicated, or fabricated. -/
theorem polls_decode_buffer_exactly (fd : Int) (rs : List RawEvent)
    (h : ∀ e ∈ rs, e.WellFormed) :
    runPolls ⟨fd, encodeBuffer rs, 0, ((encodeBuffer rs).length : Int)⟩
      (List.replicate rs.length none) = rs.map some := by
  have := runPolls_buffered fd [] rs h
  simpa using this

/-- Witness for C4: a two-record buffer (a creation event named "foo"
and a nameless modification event) polled twice yields exactly the two
records in order. -/
theorem polls_decode_buffer_exactly_witness :
    runPolls ⟨5, encodeBuffer [⟨1, 256, 0, [102, 111, 111]⟩, ⟨2, 2, 0, []⟩],
        0, ((encodeBuffer [⟨1, 256, 0, [102, 111, 111]⟩,
          ⟨2, 2, 0, []⟩]).length : Int)⟩
      (List.replicate 2 none) =
      List.map some [⟨1, 256, 0, [102, 111, 111]⟩, ⟨2, 2, 0, []⟩] :=
  polls_decode_buffer_exactly 5 [⟨1, 256, 0, [102, 111, 111]⟩, ⟨2, 2, 0, []⟩]
    (by decide)

end FileWatcher
